import Mathlib

/-!
Shallow embedding of `src/ctdl/ctdl.py` (content-downloader).

Network effects are abstracted as oracles: a page-fetch oracle
`fetch : Nat → List String` (the scraped links of the result page at a
given start offset) and a probe oracle `codes : Nat → Nat` (the return
code produced by the n-th call of `get_url_nofollow`).  Printing is
modelled by returning the list of printed lines.
-/

namespace Ctdl

/-- Python substring membership: the expression `a in b` on strings. -/
def pyIn (a b : String) : Bool := decide (a.data <:+: b.data)

/-- Python prefix slice `s[:n]` (first `n` code points, or all of `s`
if it is shorter). -/
def pySlice (s : String) (n : Nat) : String := String.mk (s.data.take n)

/-- The scheme-filter condition of `validate_links` (ctdl.py line 76):
`link[:7] in "http://" or link[:8] in "https://"`. -/
def schemeOk (link : String) : Bool :=
  pyIn (pySlice link 7) "http://" || pyIn (pySlice link 8) "https://"

/-- The first loop of `validate_links` (lines 74-77): the candidates
retained by the scheme filter, in input order. -/
def valid_links (links : List String) : List String := links.filter schemeOk

/-- Python dict assignment `m[k] = v` on an insertion-ordered map
modelled as an association list: an existing key keeps its position and
gets the new value; a new key is appended at the end. -/
def insertOrUpdate (m : List (String × Nat)) (k : String) (v : Nat) :
    List (String × Nat) :=
  if m.any (fun p => p.1 == k) then
    m.map (fun p => if p.1 = k then (k, v) else p)
  else m ++ [(k, v)]

/-- The dict `urls` built by the probing loop of `validate_links`
(lines 80-82): one assignment per probed link, keyed by URL. -/
def probeMap (pairs : List (String × Nat)) : List (String × Nat) :=
  pairs.foldl (fun m p => insertOrUpdate m p.1 p.2) []

/-- The probe sequence of `validate_links`: the scheme-filtered links
paired with the code returned by the corresponding probe call (the n-th
probe call returns `codes n`). -/
def probePairs (links : List String) (codes : Nat → Nat) :
    List (String × Nat) :=
  (valid_links links).enum.map (fun p => (p.2, codes p.1))

/-- One report line of `validate_links` (line 87):
`"code: %d\turl: %s" % (code, url)`. -/
def reportLine (code : Nat) (url : String) : String :=
  "code: " ++ toString code ++ "\turl: " ++ url

/-- `validate_links` (lines 70-91).  Returns the printed report lines
and the accepted URLs (`available_urls`), in that order. -/
def validate_links (links : List String) (codes : Nat → Nat) :
    List String × List String :=
  let urls := probeMap (probePairs links codes)
  (urls.map (fun p => reportLine p.2 p.1),
   (urls.filter (fun p => p.2 != 0)).map Prod.fst)

/-- The code recorded for `url` once the probing loop has finished:
the value of the last probe of `url` in the probe sequence (later dict
assignments overwrite earlier ones), or `none` if `url` was never
probed. -/
def lastCode (pairs : List (String × Nat)) (url : String) : Option Nat :=
  match pairs with
  | [] => none
  | p :: ps =>
    match lastCode ps url with
    | some w => some w
    | none => if p.1 = url then some p.2 else none

/-- Outcome of a Python `urlopen(url)` call as observed by
`get_url_nofollow`: success with a status code, an `HTTPError` carrying
a numeric code, or any other exception. -/
inductive UrlOpenOutcome where
  | success (code : Nat)
  | httpError (code : Nat)
  | dnsFailure
  | timeout
  | connectionRefused
  | malformedUrl
  | otherFailure
  deriving DecidableEq, Repr

/-- Raw semantics of the `urlopen`/`getcode` body: `Except` models a
propagating Python exception. -/
inductive PyExc where
  | httpError (code : Nat)
  | other
  deriving DecidableEq, Repr

/-- The try-block body of `get_url_nofollow` (lines 61-63). -/
def urlopenRaw (o : UrlOpenOutcome) : Except PyExc Nat :=
  match o with
  | .success c => .ok c
  | .httpError c => .error (.httpError c)
  | _ => .error .other

/-- `get_url_nofollow` (lines 54-67): the try/except structure.  The
`HTTPError` handler returns `e.code`; the bare `except` returns `0`. -/
def get_url_nofollow (o : UrlOpenOutcome) : Except PyExc Nat :=
  match urlopenRaw o with
  | .ok c => .ok c
  | .error (.httpError c) => .ok c
  | .error .other => .ok 0

/-- The start offsets requested by `get_links` (line 46):
`range(0, limit, 10)`. -/
def startIndices (limit : Nat) : List Nat :=
  List.range' 0 ((limit + 9) / 10) 10

/-- `get_links` (lines 38-51): fetch each page at its start offset,
concatenate the scraped links, truncate to `limit`. -/
def get_links (limit : Nat) (fetch : Nat → List String) : List String :=
  (((startIndices limit).map fetch).flatten).take limit

/-- `search` (lines 94-109): page, then validate; returns the accepted
URLs. -/
def search (limit : Nat) (fetch : Nat → List String) (codes : Nat → Nat) :
    List String :=
  (validate_links (get_links limit fetch) codes).2

/-- A value of the `THREAT_EXTENSIONS` catalog: either a single
extension string or a list of synonym extensions.  The catalog itself
lives in `ctdl/utils.py`, which is not part of the provided source, so
it stays an abstract parameter. -/
inductive CatalogValue where
  | scalar (s : String)
  | synonyms (l : List String)
  deriving DecidableEq, Repr

/-- Match of one catalog value against the requested file type:
equality for a scalar value, membership for a synonym list. -/
def matchesValue (ft : String) (v : CatalogValue) : Bool :=
  match v with
  | .scalar s => ft == s
  | .synonyms l => l.any (fun el => ft == el)

/-- `check_threats` (lines 112-127): scan the catalog values; a scalar
match breaks out of the loop, a synonym match breaks the inner loop
with the flag set (the flag is never unset afterwards). -/
def check_threats (catalog : List CatalogValue) (ft : String) : Bool :=
  match catalog with
  | [] => false
  | v :: rest => if matchesValue ft v then true else check_threats rest ft

/-- The union of the catalog values: every extension that occurs as a
scalar value or inside a list value. -/
def catalogUnion (catalog : List CatalogValue) : List String :=
  catalog.flatMap (fun v =>
    match v with
    | .scalar s => [s]
    | .synonyms l => l)

/-- Parsed CLI arguments of `main` (lines 168-203). -/
structure Args where
  query : Option String
  file_type : String
  limit : Nat
  directory : Option String
  parallel : Bool
  available : Bool
  threats : Bool
  min_file_size : Int
  max_file_size : Int
  no_redirects : Bool
  deriving DecidableEq, Repr

/-- Python truthiness of the `query` argument: `None` and the empty
string are falsy (line 134 `if not args['query']`). -/
def queryFalsy (q : Option String) : Bool :=
  match q with
  | none => true
  | some s => s == ""

/-- Python truthiness of the `directory` argument (line 143). -/
def directoryFalsy (d : Option String) : Bool :=
  match d with
  | none => true
  | some s => s == ""

/-- How a run of `main` ends: a process exit with a given status, or
blocked forever on the interactive prompt. -/
inductive Outcome where
  | exited (code : Nat)
  | blocked
  deriving DecidableEq, Repr

/-- Observable trace of a run of `main`: the printed lines, whether any
network request was issued, and how the process ended. -/
structure MainTrace where
  printed : List String
  network : Bool
  outcome : Outcome
  deriving DecidableEq, Repr

/-- The security prompt of `main` (lines 217-232) over a list of
interactive answers: `n` exits (checked first), `y` proceeds, anything
else prints the error message and re-prompts; exhausting the answers
blocks.  Returns the printed error lines and `some false` for exit,
`some true` for proceed, `none` for blocked. -/
def promptTrace (inputs : List String) : List String × Option Bool :=
  match inputs with
  | [] => ([], none)
  | x :: rest =>
    if x == "n" then ([], some false)
    else if x == "y" then ([], some true)
    else
      let r := promptTrace rest
      ("Error: Invalid option provided." :: r.1, r.2)

/-- The message printed by `validate_args` (line 135). -/
def missingQueryMsg : String := "\nMissing required query argument."

/-- The banner printed by `download_content` (lines 146-147). -/
def downloadingLine (a : Args) (dir : String) : String :=
  "Downloading " ++ toString a.limit ++ " " ++ a.file_type ++
    " files on topic " ++ (a.query.getD "") ++
    " and saving to directory: " ++ dir

/-- Control flow of `main` (lines 168-235) after argument parsing.
`fileTable` and `threatTable` are the rendered extension tables (their
content comes from `ctdl/utils.py`, outside the provided source), and
`inputs` feeds the interactive prompt.  `sys.exit()` without an
argument exits with status 0; finishing `main` normally also exits with
status 0.  Network traffic happens only inside `download_content`. -/
def mainModel (fileTable threatTable : List String)
    (catalog : List CatalogValue) (inputs : List String) (a : Args) :
    MainTrace :=
  if a.available then ⟨fileTable, false, .exited 0⟩
  else if a.threats then ⟨threatTable, false, .exited 0⟩
  else
    let pr : List String × Option Bool :=
      if check_threats catalog a.file_type then promptTrace inputs
      else ([], some true)
    match pr with
    | (ps, none) => ⟨ps, false, .blocked⟩
    | (ps, some false) => ⟨ps, false, .exited 0⟩
    | (ps, some true) =>
      if queryFalsy a.query then ⟨ps ++ [missingQueryMsg], false, .exited 0⟩
      else
        let dir :=
          if directoryFalsy a.directory then
            (a.query.getD "").replace " " "-"
          else a.directory.getD ""
        ⟨ps ++ [downloadingLine a dir], true, .exited 0⟩

/-- A concrete CLI invocation: empty query, default option values, no
flags set. -/
def emptyQueryArgs : Args :=
  { query := some "", file_type := "pdf", limit := 10, directory := none,
    parallel := false, available := false, threats := false,
    min_file_size := 0, max_file_size := -1, no_redirects := false }

/-! ### Association-list lemmas for the probe dict -/

theorem mem_insertOrUpdate (m : List (String × Nat)) (k url : String)
    (v c : Nat) :
    ((url, c) ∈ insertOrUpdate m k v) ↔
      if url = k then c = v else (url, c) ∈ m := by
  unfold insertOrUpdate
  split
  · next hany =>
    rw [List.any_eq_true] at hany
    obtain ⟨q, hq, hqk⟩ := hany
    rw [beq_iff_eq] at hqk
    rw [List.mem_map]
    by_cases huk : url = k
    · subst huk
      rw [if_pos rfl]
      constructor
      · rintro ⟨p, hp, hfp⟩
        by_cases hpk : p.1 = url
        · rw [if_pos hpk] at hfp
          exact ((Prod.mk.injEq _ _ _ _ ▸ hfp).2).symm
        · rw [if_neg hpk] at hfp
          exact absurd (congrArg Prod.fst hfp) hpk
      · intro hcv
        exact ⟨q, hq, by rw [if_pos hqk, hcv]⟩
    · rw [if_neg huk]
      constructor
      · rintro ⟨p, hp, hfp⟩
        by_cases hpk : p.1 = k
        · rw [if_pos hpk] at hfp
          exact absurd (congrArg Prod.fst hfp) (fun hh => huk hh.symm)
        · rw [if_neg hpk] at hfp
          exact hfp ▸ hp
      · intro hm
        refine ⟨(url, c), hm, ?_⟩
        rw [if_neg huk]
  · next hany =>
    have hk : ∀ w, (k, w) ∉ m := by
      intro w hw
      exact hany (List.any_eq_true.mpr ⟨(k, w), hw, beq_iff_eq.mpr rfl⟩)
    rw [List.mem_append]
    by_cases huk : url = k
    · subst huk
      rw [if_pos rfl]
      constructor
      · rintro (hm | hm)
        · exact absurd hm (hk c)
        · rw [List.mem_singleton] at hm
          exact (Prod.mk.injEq _ _ _ _ ▸ hm).2
      · intro hcv
        right
        rw [List.mem_singleton, hcv]
    · rw [if_neg huk]
      simp [huk]

theorem mem_foldl_insert (pairs : List (String × Nat))
    (m : List (String × Nat)) (url : String) (c : Nat) :
    ((url, c) ∈ pairs.foldl (fun acc p => insertOrUpdate acc p.1 p.2) m) ↔
      (lastCode pairs url = some c ∨
        (lastCode pairs url = none ∧ (url, c) ∈ m)) := by
  induction pairs generalizing m with
  | nil => simp [lastCode]
  | cons p ps ih =>
    rw [List.foldl_cons, ih (insertOrUpdate m p.1 p.2)]
    cases h : lastCode ps url with
    | some w => simp [lastCode, h]
    | none =>
      simp only [lastCode, h, mem_insertOrUpdate]
      by_cases hpk : p.1 = url
      · simp [hpk, eq_comm]
      · have : ¬ url = p.1 := fun hh => hpk hh.symm
        simp [hpk, this]

theorem mem_probeMap (pairs : List (String × Nat)) (url : String) (c : Nat) :
    ((url, c) ∈ probeMap pairs) ↔ lastCode pairs url = some c := by
  rw [probeMap, mem_foldl_insert]
  simp

theorem keys_insertOrUpdate (m : List (String × Nat)) (k : String) (v : Nat) :
    (insertOrUpdate m k v).map Prod.fst =
      if m.any (fun p => p.1 == k) then m.map Prod.fst
      else m.map Prod.fst ++ [k] := by
  unfold insertOrUpdate
  split
  · rw [List.map_map]
    refine List.map_congr_left ?_
    intro p _
    by_cases h : p.1 = k <;> simp [h]
  · simp

theorem keys_nodup_foldl (pairs : List (String × Nat)) :
    ∀ m : List (String × Nat), (m.map Prod.fst).Nodup →
      (((pairs.foldl (fun acc p => insertOrUpdate acc p.1 p.2) m)).map
        Prod.fst).Nodup := by
  induction pairs with
  | nil => intro m hm; simpa using hm
  | cons p ps ih =>
    intro m hm
    rw [List.foldl_cons]
    refine ih _ ?_
    rw [keys_insertOrUpdate]
    split
    · exact hm
    · next hany =>
      have hk : p.1 ∉ m.map Prod.fst := by
        intro hmem
        rw [List.mem_map] at hmem
        obtain ⟨q, hq, hq1⟩ := hmem
        exact hany (List.any_eq_true.mpr ⟨q, hq, beq_iff_eq.mpr hq1⟩)
      rw [List.nodup_append]
      refine ⟨hm, List.nodup_singleton _, ?_⟩
      intro a ha hb
      rw [List.mem_singleton] at hb
      exact hk (hb ▸ ha)

theorem probeMap_keys_nodup (pairs : List (String × Nat)) :
    ((probeMap pairs).map Prod.fst).Nodup :=
  keys_nodup_foldl pairs [] (by simp)

theorem keys_sublist_foldl (pairs : List (String × Nat)) :
    ∀ m : List (String × Nat),
      ((pairs.foldl (fun acc p => insertOrUpdate acc p.1 p.2) m).map
        Prod.fst).Sublist (m.map Prod.fst ++ pairs.map Prod.fst) := by
  induction pairs with
  | nil => intro m; simp
  | cons p ps ih =>
    intro m
    rw [List.foldl_cons]
    refine (ih (insertOrUpdate m p.1 p.2)).trans ?_
    rw [keys_insertOrUpdate]
    split
    · refine List.Sublist.append ?_ ?_
      · exact List.Sublist.refl _
      · exact List.sublist_cons_self _ _
    · rw [List.append_assoc]
      refine List.Sublist.append (List.Sublist.refl _) ?_
      simp

theorem probeMap_keys_sublist (pairs : List (String × Nat)) :
    ((probeMap pairs).map Prod.fst).Sublist (pairs.map Prod.fst) := by
  simpa using keys_sublist_foldl pairs []

theorem mem_map_fst {M : List (String × Nat)} {url : String} :
    url ∈ M.map Prod.fst ↔ ∃ c, (url, c) ∈ M := by
  rw [List.mem_map]
  constructor
  · rintro ⟨⟨a, b⟩, h, rfl⟩
    exact ⟨b, h⟩
  · rintro ⟨c, h⟩
    exact ⟨(url, c), h, rfl⟩

theorem lastCode_isSome (pairs : List (String × Nat)) (url : String) :
    (∃ c, lastCode pairs url = some c) ↔ url ∈ pairs.map Prod.fst := by
  induction pairs with
  | nil => simp [lastCode]
  | cons p ps ih =>
    rw [List.map_cons, List.mem_cons, ← ih]
    cases h : lastCode ps url with
    | some w => simp [lastCode, h]
    | none =>
      by_cases hpk : p.1 = url
      · simp [lastCode, h, hpk]
      · have hpk2 : ¬url = p.1 := fun hh => hpk hh.symm
        simp [lastCode, h, hpk, hpk2]

theorem mem_keys_probeMap (pairs : List (String × Nat)) (url : String) :
    url ∈ (probeMap pairs).map Prod.fst ↔ url ∈ pairs.map Prod.fst := by
  rw [mem_map_fst, ← lastCode_isSome]
  constructor
  · rintro ⟨c, hc⟩
    exact ⟨c, (mem_probeMap _ _ _).mp hc⟩
  · rintro ⟨c, hc⟩
    exact ⟨c, (mem_probeMap _ _ _).mpr hc⟩

theorem probePairs_map_fst (links : List String) (codes : Nat → Nat) :
    (probePairs links codes).map Prod.fst = valid_links links := by
  rw [probePairs, List.map_map]
  have : (Prod.fst ∘ fun p : Nat × String => (p.2, codes p.1)) = Prod.snd := by
    funext p
    rfl
  rw [this, List.enum_map_snd]

theorem mem_available (links : List String) (codes : Nat → Nat)
    (url : String) :
    url ∈ (validate_links links codes).2 ↔
      ∃ c, lastCode (probePairs links codes) url = some c ∧ c ≠ 0 := by
  show url ∈ ((probeMap (probePairs links codes)).filter
      (fun p => p.2 != 0)).map Prod.fst ↔ _
  rw [mem_map_fst]
  constructor
  · rintro ⟨c, hc⟩
    rw [List.mem_filter] at hc
    exact ⟨c, (mem_probeMap _ _ _).mp hc.1, by simpa using hc.2⟩
  · rintro ⟨c, hc, hne⟩
    exact ⟨c, List.mem_filter.mpr ⟨(mem_probeMap _ _ _).mpr hc,
      by simpa using hne⟩⟩

/-! ### Claim theorems -/

/-- C1: a probed link, recorded in the probe dict with code `c`, is
accepted into the result of `validate_links` if and only if `c` is not
`0`; in particular HTTP error codes such as 404 or 500 are accepted and
only the sentinel `0` is excluded. -/
theorem accepted_iff_code_nonzero (links : List String) (codes : Nat → Nat)
    (url : String) (c : Nat)
    (h : (url, c) ∈ probeMap (probePairs links codes)) :
    url ∈ (validate_links links codes).2 ↔ c ≠ 0 := by
  rw [mem_available]
  rw [mem_probeMap] at h
  constructor
  · rintro ⟨w, hw, hne⟩
    rw [h] at hw
    exact (Option.some.injEq _ _ ▸ hw) ▸ hne
  · intro hne
    exact ⟨c, h, hne⟩

/-- Witness for C1: with probe codes 404 and 0, the 404 link is
accepted and the 0 link is rejected. -/
theorem accepted_iff_code_nonzero_witness :
    ("http://a.com" ∈ (validate_links ["http://a.com", "http://b.com"]
        (fun n => if n == 0 then 404 else 0)).2 ↔ (404 : Nat) ≠ 0) ∧
    ("http://b.com" ∈ (validate_links ["http://a.com", "http://b.com"]
        (fun n => if n == 0 then 404 else 0)).2 ↔ (0 : Nat) ≠ 0) :=
  ⟨accepted_iff_code_nonzero _ _ _ _ (by decide),
   accepted_iff_code_nonzero _ _ _ _ (by decide)⟩

/-- C10: on duplicate input URLs, `validate_links` returns each URL at
most once (the accepted list has no duplicates), and acceptance is
decided by the code of the last probe of that URL, because later dict
assignments overwrite earlier ones. -/
theorem dedup_last_probe (links : List String) (codes : Nat → Nat) :
    (validate_links links codes).2.Nodup ∧
    ∀ url c, lastCode (probePairs links codes) url = some c →
      (url ∈ (validate_links links codes).2 ↔ c ≠ 0) := by
  constructor
  · have h1 := probeMap_keys_nodup (probePairs links codes)
    have h2 : (((probeMap (probePairs links codes)).filter
        (fun p => p.2 != 0)).map Prod.fst).Sublist
        ((probeMap (probePairs links codes)).map Prod.fst) :=
      List.Sublist.map _ (List.filter_sublist _)
    exact h2.nodup h1
  · intro url c h
    rw [mem_available]
    constructor
    · rintro ⟨w, hw, hne⟩
      rw [h] at hw
      exact (Option.some.injEq _ _ ▸ hw) ▸ hne
    · intro hne
      exact ⟨c, h, hne⟩

/-- Witness for C10: the URL probed twice with codes 0 then 200 appears
in the output (the last probe decides), and the output has no
duplicates. -/
theorem dedup_last_probe_witness :
    (validate_links ["http://a", "http://a"]
      (fun n => if n == 0 then 0 else 200)).2.Nodup ∧
    ("http://a" ∈ (validate_links ["http://a", "http://a"]
      (fun n => if n == 0 then 0 else 200)).2 ↔ (200 : Nat) ≠ 0) :=
  ⟨(dedup_last_probe ["http://a", "http://a"]
      (fun n => if n == 0 then 0 else 200)).1,
   (dedup_last_probe ["http://a", "http://a"]
      (fun n => if n == 0 then 0 else 200)).2 "http://a" 200 (by decide)⟩

/-- C9 (corrected): `validate_links` emits one report line per
DISTINCT probed URL in the format `code: <code>\turl: <url>`; the
number of lines equals the number of distinct scheme-filtered links,
the accepted URLs are returned in an order consistent with the probe
order (a sublist of the scheme-filtered input), and the probe order is
a sublist of the validator input order. -/
theorem validate_links_reporting (links : List String) (codes : Nat → Nat) :
    (∀ line ∈ (validate_links links codes).1, ∃ url c,
        (url, c) ∈ probeMap (probePairs links codes) ∧
        line = "code: " ++ toString c ++ "\turl: " ++ url) ∧
    (validate_links links codes).1.length = (valid_links links).dedup.length ∧
    ((validate_links links codes).2).Sublist (valid_links links) ∧
    (valid_links links).Sublist links := by
  refine ⟨?_, ?_, ?_, List.filter_sublist links⟩
  · intro line hline
    have hline2 : line ∈ (probeMap (probePairs links codes)).map
        (fun p => reportLine p.2 p.1) := hline
    rw [List.mem_map] at hline2
    obtain ⟨p, hp, hrep⟩ := hline2
    exact ⟨p.1, p.2, hp, hrep.symm⟩
  · have hkeys : ∀ url, url ∈ (probeMap (probePairs links codes)).map
        Prod.fst ↔ url ∈ valid_links links := by
      intro url
      rw [mem_keys_probeMap, probePairs_map_fst]
    have hnd := probeMap_keys_nodup (probePairs links codes)
    have hlen1 : (validate_links links codes).1.length =
        ((probeMap (probePairs links codes)).map Prod.fst).length := by
      show ((probeMap (probePairs links codes)).map
        (fun p => reportLine p.2 p.1)).length = _
      rw [List.length_map, List.length_map]
    have hfin : ((probeMap (probePairs links codes)).map Prod.fst).toFinset
        = (valid_links links).toFinset := by
      ext url
      rw [List.mem_toFinset, List.mem_toFinset, hkeys]
    have hfin2 : (valid_links links).toFinset =
        (valid_links links).dedup.toFinset := by
      ext url
      rw [List.mem_toFinset, List.mem_toFinset, List.mem_dedup]
    rw [hlen1, ← List.toFinset_card_of_nodup hnd, hfin, hfin2,
      List.toFinset_card_of_nodup (List.nodup_dedup _)]
  · have h1 : ((validate_links links codes).2).Sublist
        ((probeMap (probePairs links codes)).map Prod.fst) :=
      List.Sublist.map _ (List.filter_sublist _)
    refine h1.trans ?_
    rw [← probePairs_map_fst links codes]
    exact probeMap_keys_sublist _

/-- Witness for C9: a concrete report line of a probed link, in the
specified format. -/
theorem validate_links_reporting_witness :
    ∃ url c, (url, c) ∈ probeMap (probePairs ["http://a"] (fun _ => 200)) ∧
      "code: 200\turl: http://a" = "code: " ++ toString c ++ "\turl: " ++ url :=
  (validate_links_reporting ["http://a"] (fun _ => 200)).1
    "code: 200\turl: http://a" (by decide)

/-- Counterexample to C9 as stated: with the same URL probed twice,
there are two probed links but only one report line, so the validator
does not emit exactly one line per probed link. -/
theorem report_lines_dup_cex :
    (valid_links ["http://a", "http://a"]).length = 2 ∧
    ¬((validate_links ["http://a", "http://a"] (fun _ => 200)).1.length =
      (valid_links ["http://a", "http://a"]).length) := by decide

/-- C2: a candidate is retained by the scheme filter of
`validate_links` exactly when its first-7-character slice is a
substring of the literal `"http://"` or its first-8-character slice is
a substring of the literal `"https://"` (substring membership, not a
prefix test). -/
theorem scheme_filter_substring_iff (links : List String) (link : String)
    (h : link ∈ links) :
    link ∈ valid_links links ↔
      ((link.data.take 7) <:+: "http://".data ∨
       (link.data.take 8) <:+: "https://".data) := by
  rw [valid_links, List.mem_filter]
  simp [h, schemeOk, pyIn, pySlice]

/-- Witness for C2 at a concrete candidate list. -/
theorem scheme_filter_substring_iff_witness :
    "http://x.pdf" ∈ valid_links ["http://x.pdf"] ↔
      (("http://x.pdf".data.take 7) <:+: "http://".data ∨
       ("http://x.pdf".data.take 8) <:+: "https://".data) :=
  scheme_filter_substring_iff ["http://x.pdf"] "http://x.pdf" (by decide)

/-- Counterexample to C5 as stated: the string `"ttp://"` passes the
scheme filter (its 7-character slice is a substring of `"http://"`) and
is therefore probed, yet it does not begin with `http://` or
`https://`. -/
theorem probed_link_prefix_cex :
    "ttp://" ∈ valid_links ["ttp://"] ∧
    ¬("http://".data <+: "ttp://".data) ∧
    ¬("https://".data <+: "ttp://".data) := by decide

/-- C5 (corrected): every probed link of length at least 8 begins with
`http://` or `https://`; a probed link shorter than 8 characters need
only be a substring of one of the two scheme literals. -/
theorem probed_link_scheme_shape (links : List String) (link : String)
    (h : link ∈ valid_links links) :
    (8 ≤ link.length →
      ("http://".data <+: link.data ∨ "https://".data <+: link.data)) ∧
    (link.length < 8 →
      (link.data <:+: "http://".data ∨ link.data <:+: "https://".data)) := by
  rw [valid_links, List.mem_filter] at h
  have hs := h.2
  rw [schemeOk, Bool.or_eq_true] at hs
  simp only [pyIn, pySlice, decide_eq_true_eq] at hs
  have hlen : link.length = link.data.length := rfl
  constructor
  · intro hge
    rcases hs with h7 | h8
    · left
      have hl7 : (link.data.take 7).length = 7 := by
        rw [List.length_take]
        omega
      have heq := h7.eq_of_length (by rw [hl7]; rfl)
      have heq2 : "http://".data = link.data.take 7 := heq.symm
      rw [heq2]
      exact ⟨link.data.drop 7, List.take_append_drop 7 link.data⟩
    · right
      have hl8 : (link.data.take 8).length = 8 := by
        rw [List.length_take]
        omega
      have heq := h8.eq_of_length (by rw [hl8]; rfl)
      have heq2 : "https://".data = link.data.take 8 := heq.symm
      rw [heq2]
      exact ⟨link.data.drop 8, List.take_append_drop 8 link.data⟩
  · intro hlt
    have h7 : link.data.take 7 = link.data :=
      List.take_of_length_le (by omega)
    have h8 : link.data.take 8 = link.data :=
      List.take_of_length_le (by omega)
    rcases hs with hh | hh
    · left
      rwa [h7] at hh
    · right
      rwa [h8] at hh

/-- Witness for C5 (corrected): a concrete long probed link begins
with a scheme. -/
theorem probed_link_scheme_shape_witness :
    "http://".data <+: "http://x.pdf".data ∨
    "https://".data <+: "http://x.pdf".data :=
  (probed_link_scheme_shape ["http://x.pdf"] "http://x.pdf"
    (by decide)).1 (by decide)

theorem available_sublist (links : List String) (codes : Nat → Nat) :
    ((validate_links links codes).2).Sublist links := by
  have h1 : ((validate_links links codes).2).Sublist
      ((probeMap (probePairs links codes)).map Prod.fst) :=
    List.Sublist.map _ (List.filter_sublist _)
  refine h1.trans ?_
  have h2 := probeMap_keys_sublist (probePairs links codes)
  rw [probePairs_map_fst] at h2
  exact h2.trans (List.filter_sublist links)

/-- C4 (corrected): `get_links` issues requests exactly at the start
offsets that are multiples of 10 below the limit, and returns at most
`limit` links; the limit itself is not rounded down to a multiple of
10. -/
theorem get_links_offsets (limit : Nat) (fetch : Nat → List String) :
    (∀ s, s ∈ startIndices limit ↔ (10 ∣ s ∧ s < limit)) ∧
    (get_links limit fetch).length ≤ limit := by
  constructor
  · intro s
    rw [startIndices, List.mem_range']
    constructor
    · rintro ⟨i, hi, rfl⟩
      have h1 : (i + 1) * 10 ≤ limit + 9 :=
        (Nat.le_div_iff_mul_le (by norm_num)).mp hi
      exact ⟨⟨i, by ring⟩, by omega⟩
    · rintro ⟨⟨j, rfl⟩, hlt⟩
      refine ⟨j, ?_, by omega⟩
      exact (Nat.le_div_iff_mul_le (by norm_num)).mpr (by omega)
  · rw [get_links, List.length_take]
    exact min_le_left _ _

/-- Witness for C4 (corrected), at limit 15: the offset 10 is
requested, and at most 15 links are returned. -/
theorem get_links_offsets_witness :
    (10 ∈ startIndices 15 ↔ (10 ∣ 10 ∧ 10 < 15)) ∧
    (get_links 15
      (fun s => (List.range 10).map (fun i => Nat.repr (s + i)))).length
      ≤ 15 :=
  ⟨(get_links_offsets 15
      (fun s => (List.range 10).map (fun i => Nat.repr (s + i)))).1 10,
   (get_links_offsets 15
      (fun s => (List.range 10).map (fun i => Nat.repr (s + i)))).2⟩

/-- Counterexample to C4 as stated: with limit 15 and full result
pages, `get_links` returns 15 links, more than the limit rounded down
to the nearest multiple of 10 (which is 10). -/
theorem get_links_no_rounding_cex :
    (get_links 15
      (fun s => (List.range 10).map (fun i => Nat.repr (s + i)))).length
      = 15 ∧
    ¬((get_links 15
      (fun s => (List.range 10).map (fun i => Nat.repr (s + i)))).length
      ≤ 15 / 10 * 10) := by decide

/-- C7: for a limit `L` that is a multiple of 10, `get_links` issues
exactly `L / 10` paged requests at the increasing start offsets
`0, 10, ..., L - 10`, and both `get_links` and `search` return at most
`L` links; the links come back in stable order (the result of
`get_links` is a prefix of the concatenation of the scraped pages in
request order). -/
theorem paging_structure (L : Nat) (fetch : Nat → List String)
    (codes : Nat → Nat) (h : 10 ∣ L) :
    startIndices L = List.range' 0 (L / 10) 10 ∧
    (startIndices L).length = L / 10 ∧
    List.Pairwise (fun a b => a < b) (startIndices L) ∧
    (get_links L fetch) <+: ((startIndices L).map fetch).flatten ∧
    (get_links L fetch).length ≤ L ∧
    (search L fetch codes).length ≤ L := by
  obtain ⟨k, rfl⟩ := h
  have hlen : (get_links (10 * k) fetch).length ≤ 10 * k := by
    rw [get_links, List.length_take]
    exact min_le_left _ _
  refine ⟨?_, ?_, ?_, ?_, hlen, ?_⟩
  · rw [startIndices]
    congr 1
    omega
  · rw [startIndices, List.length_range']
    omega
  · rw [startIndices]
    exact List.pairwise_lt_range' 0 _ 10 (by norm_num)
  · rw [get_links]
    exact ⟨_, List.take_append_drop _ _⟩
  · exact ((available_sublist (get_links (10 * k) fetch) codes).length_le).trans
      hlen

/-- Witness for C7 at limit 20: two requests, at most 20 links. -/
theorem paging_structure_witness :
    (startIndices 20).length = 20 / 10 ∧
    (get_links 20
      (fun s => (List.range 10).map (fun i => Nat.repr (s + i)))).length
      ≤ 20 :=
  ⟨(paging_structure 20
      (fun s => (List.range 10).map (fun i => Nat.repr (s + i)))
      (fun _ => 200) (by norm_num)).2.1,
   (paging_structure 20
      (fun s => (List.range 10).map (fun i => Nat.repr (s + i)))
      (fun _ => 200) (by norm_num)).2.2.2.2.1⟩

/-- C6: `get_url_nofollow` never propagates an exception — it returns
`ok` on every outcome: the HTTP status code on success, the code
attached to an `HTTPError`, and the sentinel 0 for every other failure
(DNS, timeout, connection refused, malformed URL, or anything else). -/
theorem get_url_nofollow_total :
    (∀ o, ∃ c, get_url_nofollow o = Except.ok c) ∧
    (∀ c, get_url_nofollow (UrlOpenOutcome.success c) = Except.ok c) ∧
    (∀ c, get_url_nofollow (UrlOpenOutcome.httpError c) = Except.ok c) ∧
    get_url_nofollow UrlOpenOutcome.dnsFailure = Except.ok 0 ∧
    get_url_nofollow UrlOpenOutcome.timeout = Except.ok 0 ∧
    get_url_nofollow UrlOpenOutcome.connectionRefused = Except.ok 0 ∧
    get_url_nofollow UrlOpenOutcome.malformedUrl = Except.ok 0 ∧
    get_url_nofollow UrlOpenOutcome.otherFailure = Except.ok 0 := by
  refine ⟨?_, fun c => rfl, fun c => rfl, rfl, rfl, rfl, rfl, rfl⟩
  intro o
  cases o <;> exact ⟨_, rfl⟩

/-- C8: `check_threats` returns true exactly when the file type is in
the union of the catalog values — equal to a scalar value or a member
of a list value; it is a pure function of the file type and the
catalog. -/
theorem check_threats_iff_union (catalog : List CatalogValue) (ft : String) :
    check_threats catalog ft = true ↔ ft ∈ catalogUnion catalog := by
  induction catalog with
  | nil => simp [check_threats, catalogUnion]
  | cons v rest ih =>
    cases v with
    | scalar s =>
      by_cases hm : ft = s
      · simp [check_threats, matchesValue, catalogUnion, hm]
      · simp [check_threats, matchesValue, catalogUnion, hm, ih]
    | synonyms l =>
      by_cases hm : ft ∈ l
      · simp [check_threats, matchesValue, catalogUnion, hm]
      · simp [check_threats, matchesValue, catalogUnion, hm, ih]

/-- Counterexample to C3 as stated: with an empty query and neither
table flag, the run prints the missing-query message and performs no
network I/O, but the exit status is 0 (`sys.exit()` with no argument),
not nonzero. -/
theorem missing_query_exit_zero_cex :
    (queryFalsy emptyQueryArgs.query = true ∧
     emptyQueryArgs.available = false ∧ emptyQueryArgs.threats = false) ∧
    (mainModel [] [] [] [] emptyQueryArgs).outcome = Outcome.exited 0 ∧
    missingQueryMsg ∈ (mainModel [] [] [] [] emptyQueryArgs).printed ∧
    (mainModel [] [] [] [] emptyQueryArgs).network = false := by decide

/-- C3 (corrected): for a missing (absent or empty) query with neither
`--available` nor `--threats`, the run performs no network I/O and any
exit has status 0; when additionally no high-threat prompt intervenes,
it prints the missing-query message and exits (with status 0). -/
theorem missing_query_exit (ft tt : List String)
    (catalog : List CatalogValue) (inputs : List String) (a : Args)
    (hq : queryFalsy a.query = true) (hav : a.available = false)
    (hth : a.threats = false) :
    (mainModel ft tt catalog inputs a).network = false ∧
    (∀ c, (mainModel ft tt catalog inputs a).outcome = Outcome.exited c →
      c = 0) ∧
    (check_threats catalog a.file_type = false →
      missingQueryMsg ∈ (mainModel ft tt catalog inputs a).printed ∧
      (mainModel ft tt catalog inputs a).outcome = Outcome.exited 0) := by
  by_cases hct : check_threats catalog a.file_type = true
  · rcases hpr : promptTrace inputs with ⟨ps, r⟩
    cases r with
    | none =>
      have hm2 : mainModel ft tt catalog inputs a =
          ⟨ps, false, Outcome.blocked⟩ := by
        simp [mainModel, hav, hth, hct, hpr]
      rw [hm2]
      refine ⟨rfl, ?_, ?_⟩
      · intro c hc
        exact absurd hc (by simp)
      · intro hfalse
        exact absurd (hct.symm.trans hfalse) (by decide)
    | some b =>
      cases b with
      | false =>
        have hm2 : mainModel ft tt catalog inputs a =
            ⟨ps, false, Outcome.exited 0⟩ := by
          simp [mainModel, hav, hth, hct, hpr]
        rw [hm2]
        refine ⟨rfl, ?_, ?_⟩
        · intro c hc
          simpa using hc.symm
        · intro hfalse
          exact absurd (hct.symm.trans hfalse) (by decide)
      | true =>
        have hm2 : mainModel ft tt catalog inputs a =
            ⟨ps ++ [missingQueryMsg], false, Outcome.exited 0⟩ := by
          simp [mainModel, hav, hth, hct, hpr, hq]
        rw [hm2]
        refine ⟨rfl, ?_, ?_⟩
        · intro c hc
          simpa using hc.symm
        · intro hfalse
          exact absurd (hct.symm.trans hfalse) (by decide)
  · have hctf : check_threats catalog a.file_type = false := by
      simpa using hct
    have hm2 : mainModel ft tt catalog inputs a =
        ⟨[missingQueryMsg], false, Outcome.exited 0⟩ := by
      simp [mainModel, hav, hth, hctf, hq]
    rw [hm2]
    refine ⟨rfl, ?_, fun _ => ⟨by simp, rfl⟩⟩
    intro c hc
    simpa using hc.symm

/-- Witness for C3 (corrected) at the concrete empty-query
invocation. -/
theorem missing_query_exit_witness :
    (mainModel [] [] [] [] emptyQueryArgs).network = false ∧
    missingQueryMsg ∈ (mainModel [] [] [] [] emptyQueryArgs).printed ∧
    (mainModel [] [] [] [] emptyQueryArgs).outcome = Outcome.exited 0 :=
  ⟨(missing_query_exit [] [] [] [] emptyQueryArgs rfl rfl rfl).1,
   ((missing_query_exit [] [] [] [] emptyQueryArgs rfl rfl rfl).2.2 rfl).1,
   ((missing_query_exit [] [] [] [] emptyQueryArgs rfl rfl rfl).2.2 rfl).2⟩

end Ctdl
